import Mathlib

/-!
Shallow embedding of `perun/collect/memory/malloc.c`, the allocation-event
interception layer of the perun memory collector.

The C file installs interposed versions of the allocation primitives
(`malloc`, `free`, `realloc`, `calloc`, `memalign`, `posix_memalign`,
`valloc`, `aligned_alloc`).  Each interposed function lazily resolves the
original implementation with `dlsym(RTLD_NEXT, ...)`, lazily opens a log
file, forwards the call to the original implementation, and - when the
thread-local guard counter `mutex` is zero and the call succeeded - appends
one event block to the log via `ad_log`.

The embedding is single-threaded explicit state passing:
* `MState` holds the mutable globals of the C file (the thread-local guard
  counter of the calling thread, the eight `real_*` resolution slots, the
  `logFile` stream) plus observation-only instrumentation (which `dlsym`
  lookups ran and with which guard value, which real implementations were
  invoked, how many `fopen` calls happened, what was printed to `stderr`).
* `RealImpls` packages the external collaborators: the results of
  `dlsym`, `fopen`, `clock`, the backtrace writer, and the original
  allocation implementations.  Pointers are modelled as `Nat` with `0`
  playing the role of `NULL`; `size_t` arithmetic wraps modulo `2 ^ 64`.
* A function that may call `exit(EXIT_FAILURE)` returns
  `Except (Nat × MState) _`, the `Nat` being the process exit status.
-/

namespace Perun

/-- Modulus of C `unsigned int` (the type of the guard counter), `2 ^ 32`. -/
def UINT_MOD : Nat := 4294967296

/-- Modulus of C `size_t` on the 64-bit target, `2 ^ 64`. -/
def SIZE_MOD : Nat := 18446744073709551616

/-- `#define LOG_FILE_NAME "MemoryLog"` from the source. -/
def LOG_FILE_NAME : String := "MemoryLog"

/-- `#define CALLS_TO_SKIP 1` from the source. -/
def CALLS_TO_SKIP : Nat := 1

/-- One allocation event block as written by `ad_log`: the `time` line, the
`<allocator> <size>B <address>` line and the backtrace lines. -/
structure Event where
  time : Nat
  allocator : String
  size : Nat
  ptr : Nat
  frames : List String
deriving DecidableEq, Repr

/-- One block of the log file: either an event block or the final
`EXIT <float>s` line written by `finalize`. -/
inductive LogRecord where
  | event : Event → LogRecord
  | exitMark : Nat → LogRecord
deriving DecidableEq, Repr

/-- The open log stream: the records written so far and whether `fclose`
has run on it. -/
structure LogFileState where
  records : List LogRecord
  closed : Bool
deriving DecidableEq, Repr

/-- The mutable globals of `malloc.c` for a single calling thread, plus
observation-only instrumentation fields (`dlsymCalls`, `implCalls`,
`fopenCalls`, `stderrLines`) that record what the code did without
influencing it.  The `real_*` slots are `Bool`: `true` means the slot holds
the (non-`NULL`) address that `dlsym` returned, `false` means `NULL`. -/
structure MState where
  mutex : Nat
  real_malloc : Bool
  real_free : Bool
  real_realloc : Bool
  real_calloc : Bool
  real_memalign : Bool
  real_posix_memalign : Bool
  real_valloc : Bool
  real_aligned_alloc : Bool
  logFile : Option LogFileState
  stderrLines : List String
  dlsymCalls : List (String × Nat)
  implCalls : List String
  fopenCalls : Nat
deriving DecidableEq, Repr

/-- The external collaborators of the C file: `dlsym` success per symbol,
`fopen` success, `clock()`, the backtrace writer's output, and the original
allocation implementations found by `dlsym`.  A returned pointer `0` models
`NULL`.  `posix_memalign_impl` returns the status code and the value stored
through the out-parameter. -/
structure RealImpls where
  dlsym_ok : String → Bool
  fopen_ok : Bool
  clock : Nat
  backtraceLines : List String
  malloc_impl : Nat → Nat
  realloc_impl : Nat → Nat → Nat
  calloc_impl : Nat → Nat → Nat
  memalign_impl : Nat → Nat → Nat
  posix_memalign_impl : Nat → Nat → Nat × Nat
  valloc_impl : Nat → Nat
  aligned_alloc_impl : Nat → Nat → Nat

/-- `lock_mutex`: `__sync_fetch_and_add(&mutex, 1)` - returns the value
before incrementing, wrapping as C `unsigned int`. -/
def lock_mutex (s : MState) : Nat × MState :=
  (s.mutex, { s with mutex := (s.mutex + 1) % UINT_MOD })

/-- `unlock_mutex`: `__sync_fetch_and_sub(&mutex, 1)`, wrapping as C
`unsigned int` (subtracting 1 is adding `UINT_MOD - 1` modulo `UINT_MOD`). -/
def unlock_mutex (s : MState) : MState :=
  { s with mutex := (s.mutex + (UINT_MOD - 1)) % UINT_MOD }

/-- `finalize` (the GCC destructor): if `logFile` is non-`NULL`, print the
`EXIT <float>s` line and `fclose` the stream. -/
def finalize (r : RealImpls) (s : MState) : MState :=
  match s.logFile with
  | none => s
  | some lf =>
      { s with logFile := some { records := lf.records ++ [LogRecord.exitMark r.clock], closed := true } }

/-- `init_log_file`: under the guard, open the log file if it is not open
yet; on `fopen` failure print a diagnostic and `exit(EXIT_FAILURE)`. -/
def init_log_file (r : RealImpls) (s : MState) : Except (Nat × MState) MState :=
  let s1 := (lock_mutex s).2
  match s1.logFile with
  | some _ => Except.ok (unlock_mutex s1)
  | none =>
      let s2 := { s1 with fopenCalls := s1.fopenCalls + 1 }
      if r.fopen_ok then
        Except.ok (unlock_mutex { s2 with logFile := some { records := [], closed := false } })
      else
        Except.error (1, { s2 with stderrLines := s2.stderrLines ++ ["error: fopen()"] })

/-- `ad_log`: under the guard, write the `time` line, the allocation line,
the backtrace and a blank line as one event block appended to `logFile`. -/
def ad_log (r : RealImpls) (allocator : String) (size : Nat) (ptr : Nat) (s : MState) : MState :=
  let s1 := (lock_mutex s).2
  let rcd := LogRecord.event { time := r.clock, allocator := allocator, size := size, ptr := ptr, frames := r.backtraceLines }
  let s2 := { s1 with logFile := s1.logFile.map (fun lf => { lf with records := lf.records ++ [rcd] }) }
  unlock_mutex s2

/-- Interposed `malloc`. -/
def malloc (r : RealImpls) (size : Nat) (s : MState) : Except (Nat × MState) (Nat × MState) :=
  let step :=
    if s.real_malloc then Except.ok s
    else
      let s1 := { s with dlsymCalls := s.dlsymCalls ++ [("malloc", s.mutex)] }
      if r.dlsym_ok "malloc" then
        init_log_file r { s1 with real_malloc := true }
      else
        Except.error (1, { s1 with stderrLines := s1.stderrLines ++ ["error: dlsym() malloc"] })
  match step with
  | Except.error e => Except.error e
  | Except.ok s2 =>
      let ptr := r.malloc_impl size
      let s3 := { s2 with implCalls := s2.implCalls ++ ["malloc"] }
      let s4 := if s3.mutex = 0 ∧ ptr ≠ 0 then ad_log r "malloc" size ptr s3 else s3
      Except.ok (ptr, s4)

/-- Interposed `free`. -/
def free (r : RealImpls) (ptr : Nat) (s : MState) : Except (Nat × MState) MState :=
  let step :=
    if s.real_free then Except.ok s
    else
      let s1 := { s with dlsymCalls := s.dlsymCalls ++ [("free", s.mutex)] }
      if r.dlsym_ok "free" then
        init_log_file r { s1 with real_free := true }
      else
        Except.error (1, { s1 with stderrLines := s1.stderrLines ++ ["error: dlsym() free"] })
  match step with
  | Except.error e => Except.error e
  | Except.ok s2 =>
      let s3 := { s2 with implCalls := s2.implCalls ++ ["free"] }
      let s4 := if s3.mutex = 0 then ad_log r "free" 0 ptr s3 else s3
      Except.ok s4

/-- Interposed `realloc`.  On success (non-`NULL` new pointer) while
outermost it logs the realloc event and then a synthetic free event for the
old pointer value. -/
def realloc (r : RealImpls) (ptr size : Nat) (s : MState) : Except (Nat × MState) (Nat × MState) :=
  let step :=
    if s.real_realloc then Except.ok s
    else
      let s1 := { s with dlsymCalls := s.dlsymCalls ++ [("realloc", s.mutex)] }
      if r.dlsym_ok "realloc" then
        init_log_file r { s1 with real_realloc := true }
      else
        Except.error (1, { s1 with stderrLines := s1.stderrLines ++ ["error: dlsym() realloc"] })
  match step with
  | Except.error e => Except.error e
  | Except.ok s2 =>
      let old_ptr := ptr
      let nptr := r.realloc_impl ptr size
      let s3 := { s2 with implCalls := s2.implCalls ++ ["realloc"] }
      let s4 :=
        if s3.mutex = 0 ∧ nptr ≠ 0 then
          ad_log r "free" 0 old_ptr (ad_log r "realloc" size nptr s3)
        else s3
      Except.ok (nptr, s4)

/-- Interposed `calloc`.  The logged size is `size*nmemb` in `size_t`
arithmetic, i.e. the product modulo `SIZE_MOD`. -/
def calloc (r : RealImpls) (nmemb size : Nat) (s : MState) : Except (Nat × MState) (Nat × MState) :=
  let step :=
    if s.real_calloc then Except.ok s
    else
      let s1 := { s with dlsymCalls := s.dlsymCalls ++ [("calloc", s.mutex)] }
      if r.dlsym_ok "calloc" then
        init_log_file r { s1 with real_calloc := true }
      else
        Except.error (1, { s1 with stderrLines := s1.stderrLines ++ ["error: dlsym() calloc"] })
  match step with
  | Except.error e => Except.error e
  | Except.ok s2 =>
      let ptr := r.calloc_impl nmemb size
      let s3 := { s2 with implCalls := s2.implCalls ++ ["calloc"] }
      let s4 := if s3.mutex = 0 ∧ ptr ≠ 0 then ad_log r "calloc" ((size * nmemb) % SIZE_MOD) ptr s3 else s3
      Except.ok (ptr, s4)

/-- Interposed `memalign`. -/
def memalign (r : RealImpls) (alignment size : Nat) (s : MState) : Except (Nat × MState) (Nat × MState) :=
  let step :=
    if s.real_memalign then Except.ok s
    else
      let s1 := { s with dlsymCalls := s.dlsymCalls ++ [("memalign", s.mutex)] }
      if r.dlsym_ok "memalign" then
        init_log_file r { s1 with real_memalign := true }
      else
        Except.error (1, { s1 with stderrLines := s1.stderrLines ++ ["error: dlsym() memalign"] })
  match step with
  | Except.error e => Except.error e
  | Except.ok s2 =>
      let ptr := r.memalign_impl alignment size
      let s3 := { s2 with implCalls := s2.implCalls ++ ["memalign"] }
      let s4 := if s3.mutex = 0 ∧ ptr ≠ 0 then ad_log r "memalign" size ptr s3 else s3
      Except.ok (ptr, s4)

/-- Interposed `posix_memalign`.  Returns the status code of the original
implementation together with the out-parameter value; logs only on status
`0`, with the out-parameter as the address. -/
def posix_memalign (r : RealImpls) (alignment size : Nat) (s : MState) : Except (Nat × MState) ((Nat × Nat) × MState) :=
  let step :=
    if s.real_posix_memalign then Except.ok s
    else
      let s1 := { s with dlsymCalls := s.dlsymCalls ++ [("posix_memalign", s.mutex)] }
      if r.dlsym_ok "posix_memalign" then
        init_log_file r { s1 with real_posix_memalign := true }
      else
        Except.error (1, { s1 with stderrLines := s1.stderrLines ++ ["error: dlsym() posix_memalign"] })
  match step with
  | Except.error e => Except.error e
  | Except.ok s2 =>
      let res := r.posix_memalign_impl alignment size
      let s3 := { s2 with implCalls := s2.implCalls ++ ["posix_memalign"] }
      let s4 := if s3.mutex = 0 ∧ res.1 = 0 then ad_log r "posix_memalign" size res.2 s3 else s3
      Except.ok (res, s4)

/-- Interposed `valloc`. -/
def valloc (r : RealImpls) (size : Nat) (s : MState) : Except (Nat × MState) (Nat × MState) :=
  let step :=
    if s.real_valloc then Except.ok s
    else
      let s1 := { s with dlsymCalls := s.dlsymCalls ++ [("valloc", s.mutex)] }
      if r.dlsym_ok "valloc" then
        init_log_file r { s1 with real_valloc := true }
      else
        Except.error (1, { s1 with stderrLines := s1.stderrLines ++ ["error: dlsym() valloc"] })
  match step with
  | Except.error e => Except.error e
  | Except.ok s2 =>
      let ptr := r.valloc_impl size
      let s3 := { s2 with implCalls := s2.implCalls ++ ["valloc"] }
      let s4 := if s3.mutex = 0 ∧ ptr ≠ 0 then ad_log r "valloc" size ptr s3 else s3
      Except.ok (ptr, s4)

/-- Interposed `aligned_alloc`. -/
def aligned_alloc (r : RealImpls) (alignment size : Nat) (s : MState) : Except (Nat × MState) (Nat × MState) :=
  let step :=
    if s.real_aligned_alloc then Except.ok s
    else
      let s1 := { s with dlsymCalls := s.dlsymCalls ++ [("aligned_alloc", s.mutex)] }
      if r.dlsym_ok "aligned_alloc" then
        init_log_file r { s1 with real_aligned_alloc := true }
      else
        Except.error (1, { s1 with stderrLines := s1.stderrLines ++ ["error: dlsym() aligned_alloc"] })
  match step with
  | Except.error e => Except.error e
  | Except.ok s2 =>
      let ptr := r.aligned_alloc_impl alignment size
      let s3 := { s2 with implCalls := s2.implCalls ++ ["aligned_alloc"] }
      let s4 := if s3.mutex = 0 ∧ ptr ≠ 0 then ad_log r "aligned_alloc" size ptr s3 else s3
      Except.ok (ptr, s4)

/-- The static initial state of the C file: all slots `NULL`, `logFile`
`NULL`, guard counter of the thread `0`, nothing observed yet. -/
def initState : MState :=
  { mutex := 0
    real_malloc := false
    real_free := false
    real_realloc := false
    real_calloc := false
    real_memalign := false
    real_posix_memalign := false
    real_valloc := false
    real_aligned_alloc := false
    logFile := none
    stderrLines := []
    dlsymCalls := []
    implCalls := []
    fopenCalls := 0 }

/-- The eight intercepted operation kinds. -/
inductive OpKind where
  | malloc
  | free
  | realloc
  | calloc
  | memalign
  | posix_memalign
  | valloc
  | aligned_alloc
deriving DecidableEq, Repr, Fintype

/-- The symbol name each interceptor resolves with `dlsym`. -/
def symNameK : OpKind → String
  | OpKind.malloc => "malloc"
  | OpKind.free => "free"
  | OpKind.realloc => "realloc"
  | OpKind.calloc => "calloc"
  | OpKind.memalign => "memalign"
  | OpKind.posix_memalign => "posix_memalign"
  | OpKind.valloc => "valloc"
  | OpKind.aligned_alloc => "aligned_alloc"

/-- Read the resolution slot of an operation kind. -/
def slotK : OpKind → MState → Bool
  | OpKind.malloc, s => s.real_malloc
  | OpKind.free, s => s.real_free
  | OpKind.realloc, s => s.real_realloc
  | OpKind.calloc, s => s.real_calloc
  | OpKind.memalign, s => s.real_memalign
  | OpKind.posix_memalign, s => s.real_posix_memalign
  | OpKind.valloc, s => s.real_valloc
  | OpKind.aligned_alloc, s => s.real_aligned_alloc

/-- Set the resolution slot of an operation kind to resolved. -/
def setSlotK : OpKind → MState → MState
  | OpKind.malloc, s => { s with real_malloc := true }
  | OpKind.free, s => { s with real_free := true }
  | OpKind.realloc, s => { s with real_realloc := true }
  | OpKind.calloc, s => { s with real_calloc := true }
  | OpKind.memalign, s => { s with real_memalign := true }
  | OpKind.posix_memalign, s => { s with real_posix_memalign := true }
  | OpKind.valloc, s => { s with real_valloc := true }
  | OpKind.aligned_alloc, s => { s with real_aligned_alloc := true }

/-- One call to an interceptor, with the caller's arguments. -/
inductive AllocCall where
  | malloc : Nat → AllocCall
  | free : Nat → AllocCall
  | realloc : Nat → Nat → AllocCall
  | calloc : Nat → Nat → AllocCall
  | memalign : Nat → Nat → AllocCall
  | posix_memalign : Nat → Nat → AllocCall
  | valloc : Nat → AllocCall
  | aligned_alloc : Nat → Nat → AllocCall
deriving DecidableEq, Repr

/-- The operation kind of a call. -/
def kindOf : AllocCall → OpKind
  | AllocCall.malloc _ => OpKind.malloc
  | AllocCall.free _ => OpKind.free
  | AllocCall.realloc _ _ => OpKind.realloc
  | AllocCall.calloc _ _ => OpKind.calloc
  | AllocCall.memalign _ _ => OpKind.memalign
  | AllocCall.posix_memalign _ _ => OpKind.posix_memalign
  | AllocCall.valloc _ => OpKind.valloc
  | AllocCall.aligned_alloc _ _ => OpKind.aligned_alloc

/-- Value an interceptor returns to its caller: a pointer, nothing
(`free`), or status code plus out-parameter (`posix_memalign`). -/
inductive RetVal where
  | ptrV : Nat → RetVal
  | unitV : RetVal
  | intOutV : Nat → Nat → RetVal
deriving DecidableEq, Repr

/-- The value the wrapped original implementation produces for a call. -/
def wrappedResult (r : RealImpls) (c : AllocCall) : RetVal :=
  match c with
  | AllocCall.malloc size => RetVal.ptrV (r.malloc_impl size)
  | AllocCall.free _ => RetVal.unitV
  | AllocCall.realloc p size => RetVal.ptrV (r.realloc_impl p size)
  | AllocCall.calloc n size => RetVal.ptrV (r.calloc_impl n size)
  | AllocCall.memalign a size => RetVal.ptrV (r.memalign_impl a size)
  | AllocCall.posix_memalign a size => RetVal.intOutV (r.posix_memalign_impl a size).1 (r.posix_memalign_impl a size).2
  | AllocCall.valloc size => RetVal.ptrV (r.valloc_impl size)
  | AllocCall.aligned_alloc a size => RetVal.ptrV (r.aligned_alloc_impl a size)

/-- Dispatch one interceptor call, wrapping the heterogeneous return types
into `RetVal`. -/
def runCall (r : RealImpls) (c : AllocCall) (s : MState) : Except (Nat × MState) (RetVal × MState) :=
  match c with
  | AllocCall.malloc size =>
      match Perun.malloc r size s with
      | Except.ok (p, s') => Except.ok (RetVal.ptrV p, s')
      | Except.error e => Except.error e
  | AllocCall.free p =>
      match Perun.free r p s with
      | Except.ok s' => Except.ok (RetVal.unitV, s')
      | Except.error e => Except.error e
  | AllocCall.realloc p size =>
      match Perun.realloc r p size s with
      | Except.ok (q, s') => Except.ok (RetVal.ptrV q, s')
      | Except.error e => Except.error e
  | AllocCall.calloc n size =>
      match Perun.calloc r n size s with
      | Except.ok (p, s') => Except.ok (RetVal.ptrV p, s')
      | Except.error e => Except.error e
  | AllocCall.memalign a size =>
      match Perun.memalign r a size s with
      | Except.ok (p, s') => Except.ok (RetVal.ptrV p, s')
      | Except.error e => Except.error e
  | AllocCall.posix_memalign a size =>
      match Perun.posix_memalign r a size s with
      | Except.ok (q, s') => Except.ok (RetVal.intOutV q.1 q.2, s')
      | Except.error e => Except.error e
  | AllocCall.valloc size =>
      match Perun.valloc r size s with
      | Except.ok (p, s') => Except.ok (RetVal.ptrV p, s')
      | Except.error e => Except.error e
  | AllocCall.aligned_alloc a size =>
      match Perun.aligned_alloc r a size s with
      | Except.ok (p, s') => Except.ok (RetVal.ptrV p, s')
      | Except.error e => Except.error e

/-- Run a list of interceptor calls in sequence, stopping at a fatal exit. -/
def runCalls (r : RealImpls) : List AllocCall → MState → Except (Nat × MState) MState
  | [], s => Except.ok s
  | c :: cs, s =>
      match runCall r c s with
      | Except.ok (_, s') => runCalls r cs s'
      | Except.error e => Except.error e

/-- The state after a call, whether it returned or exited the process. -/
def afterRun : Except (Nat × MState) (RetVal × MState) → MState
  | Except.ok (_, s) => s
  | Except.error (_, s) => s

/-- The value a call returned (dummy `unitV` if the process exited). -/
def retOf : Except (Nat × MState) (RetVal × MState) → RetVal
  | Except.ok (v, _) => v
  | Except.error _ => RetVal.unitV

/-- The state after a call sequence, whether it returned or exited. -/
def afterRuns : Except (Nat × MState) MState → MState
  | Except.ok s => s
  | Except.error (_, s) => s

/-- The records currently in the log file (empty when never opened). -/
def logRecords (s : MState) : List LogRecord :=
  match s.logFile with
  | none => []
  | some lf => lf.records

/-- The event blocks currently in the log file, in order. -/
def eventRecords (s : MState) : List Event :=
  (logRecords s).filterMap (fun rcd =>
    match rcd with
    | LogRecord.event e => some e
    | LogRecord.exitMark _ => none)

/-- How many times `dlsym` ran for a given symbol name. -/
def dlsymCount (name : String) (s : MState) : Nat :=
  (s.dlsymCalls.filter (fun p => p.1 == name)).length

/-- Whether a log record is the final `EXIT` line. -/
def isExitRecord : LogRecord → Bool
  | LogRecord.event _ => false
  | LogRecord.exitMark _ => true

/-- The per-operation success condition of the emission policy, as checked
by the interceptors: non-`NULL` result for the allocate family, status `0`
for `posix_memalign`, unconditional for `free`. -/
def successCond (r : RealImpls) (c : AllocCall) : Bool :=
  match c with
  | AllocCall.malloc size => r.malloc_impl size != 0
  | AllocCall.free _ => true
  | AllocCall.realloc p size => r.realloc_impl p size != 0
  | AllocCall.calloc n size => r.calloc_impl n size != 0
  | AllocCall.memalign a size => r.memalign_impl a size != 0
  | AllocCall.posix_memalign a size => (r.posix_memalign_impl a size).1 == 0
  | AllocCall.valloc size => r.valloc_impl size != 0
  | AllocCall.aligned_alloc a size => r.aligned_alloc_impl a size != 0

/-- The event blocks an outermost successful call appends, in order. -/
def loggedEvents (r : RealImpls) (c : AllocCall) : List Event :=
  match c with
  | AllocCall.malloc size =>
      [{ time := r.clock, allocator := "malloc", size := size, ptr := r.malloc_impl size, frames := r.backtraceLines }]
  | AllocCall.free p =>
      [{ time := r.clock, allocator := "free", size := 0, ptr := p, frames := r.backtraceLines }]
  | AllocCall.realloc p size =>
      [{ time := r.clock, allocator := "realloc", size := size, ptr := r.realloc_impl p size, frames := r.backtraceLines },
       { time := r.clock, allocator := "free", size := 0, ptr := p, frames := r.backtraceLines }]
  | AllocCall.calloc n size =>
      [{ time := r.clock, allocator := "calloc", size := (size * n) % SIZE_MOD, ptr := r.calloc_impl n size, frames := r.backtraceLines }]
  | AllocCall.memalign a size =>
      [{ time := r.clock, allocator := "memalign", size := size, ptr := r.memalign_impl a size, frames := r.backtraceLines }]
  | AllocCall.posix_memalign a size =>
      [{ time := r.clock, allocator := "posix_memalign", size := size, ptr := (r.posix_memalign_impl a size).2, frames := r.backtraceLines }]
  | AllocCall.valloc size =>
      [{ time := r.clock, allocator := "valloc", size := size, ptr := r.valloc_impl size, frames := r.backtraceLines }]
  | AllocCall.aligned_alloc a size =>
      [{ time := r.clock, allocator := "aligned_alloc", size := size, ptr := r.aligned_alloc_impl a size, frames := r.backtraceLines }]

/-- Append event blocks to the log stream (no-op when the stream is not
open, as `Option.map` on `none`). -/
def appendEvents (s : MState) (evs : List Event) : MState :=
  { s with logFile := s.logFile.map (fun lf => { lf with records := lf.records ++ evs.map LogRecord.event }) }

/-- The state after the resolution block of an interceptor, assuming it
did not exit: record the `dlsym` run (with the guard value it saw), set the
slot, and open the log file if needed. -/
def postResolve (c : AllocCall) (s : MState) : MState :=
  if slotK (kindOf c) s then s
  else
    let s1 := setSlotK (kindOf c) { s with dlsymCalls := s.dlsymCalls ++ [(symNameK (kindOf c), s.mutex)] }
    match s1.logFile with
    | some _ => s1
    | none => { s1 with logFile := some { records := [], closed := false }, fopenCalls := s1.fopenCalls + 1 }

/-- The state a non-exiting interceptor call ends in: resolution effects,
the invocation of the original implementation, and the event blocks when
the call was outermost and successful. -/
def postCall (r : RealImpls) (c : AllocCall) (s : MState) : MState :=
  let s2 := postResolve c s
  let s3 := { s2 with implCalls := s2.implCalls ++ [symNameK (kindOf c)] }
  if s.mutex = 0 ∧ successCond r c = true then appendEvents s3 (loggedEvents r c) else s3


/-- The diagnostic each interceptor prints when `dlsym` returns `NULL`. -/
def dlsymDiag : OpKind → String
  | OpKind.malloc => "error: dlsym() malloc"
  | OpKind.free => "error: dlsym() free"
  | OpKind.realloc => "error: dlsym() realloc"
  | OpKind.calloc => "error: dlsym() calloc"
  | OpKind.memalign => "error: dlsym() memalign"
  | OpKind.posix_memalign => "error: dlsym() posix_memalign"
  | OpKind.valloc => "error: dlsym() valloc"
  | OpKind.aligned_alloc => "error: dlsym() aligned_alloc"

/-- Invariant of states reachable from `initState` by non-exiting
interceptor calls. -/
def Reach (s : MState) : Prop :=
  s.mutex = 0 ∧
  (∀ k : OpKind, slotK k s = true → s.logFile.isSome = true) ∧
  (∀ k : OpKind, (slotK k s = false → dlsymCount (symNameK k) s = 0) ∧ dlsymCount (symNameK k) s ≤ 1) ∧
  (s.logFile = none → s.fopenCalls = 0) ∧
  (s.logFile.isSome = true → s.fopenCalls = 1)

/-! Concrete collaborators and states used by witnesses and
counterexamples. -/

/-- External collaborators for which every lookup and open succeeds. -/
def oracleA : RealImpls :=
  { dlsym_ok := fun _ => true
    fopen_ok := true
    clock := 7
    backtraceLines := ["frame0"]
    malloc_impl := fun _ => 4096
    realloc_impl := fun _ _ => 8192
    calloc_impl := fun _ _ => 4096
    memalign_impl := fun _ _ => 512
    posix_memalign_impl := fun _ _ => (0, 1024)
    valloc_impl := fun _ => 2048
    aligned_alloc_impl := fun _ _ => 256 }

/-- Collaborators whose `dlsym` always returns `NULL`. -/
def oracleB : RealImpls := { oracleA with dlsym_ok := fun _ => false }

/-- Collaborators whose `fopen` fails. -/
def oracleC : RealImpls := { oracleA with fopen_ok := false }

/-- A thread state whose guard counter is 3. -/
def sMutex3 : MState := { initState with mutex := 3 }

/-- A process state whose log stream is open and holds no records. -/
def sOpen : MState := { initState with logFile := some { records := [], closed := false } }

/-! Characterization lemmas: each interceptor path is computed into an
explicit result state, from which the claim theorems follow. -/

theorem unlock_lock (s : MState) (h : s.mutex < UINT_MOD) :
    unlock_mutex (lock_mutex s).2 = s := by
  have hmu : ((s.mutex + 1) % UINT_MOD + (UINT_MOD - 1)) % UINT_MOD = s.mutex := by
    simp only [UINT_MOD] at *
    omega
  show { s with mutex := ((s.mutex + 1) % UINT_MOD + (UINT_MOD - 1)) % UINT_MOD } = s
  rw [hmu]

theorem ad_log_char (r : RealImpls) (a : String) (n p : Nat) (s : MState) (h : s.mutex < UINT_MOD) :
    ad_log r a n p s =
      { s with logFile := s.logFile.map (fun lf =>
          { lf with records := lf.records ++
              [LogRecord.event { time := r.clock, allocator := a, size := n, ptr := p, frames := r.backtraceLines }] }) } := by
  obtain ⟨mu, a1, a2, a3, a4, a5, a6, a7, a8, lF, eL, dC, iC, fC⟩ := s
  simp only [UINT_MOD] at h
  simp [ad_log, lock_mutex, unlock_mutex, MState.mk.injEq, UINT_MOD]
  omega

theorem init_log_file_opened (r : RealImpls) (s : MState) (lf : LogFileState)
    (h : s.logFile = some lf) (hm : s.mutex < UINT_MOD) :
    init_log_file r s = Except.ok s := by
  obtain ⟨mu, a1, a2, a3, a4, a5, a6, a7, a8, lF, eL, dC, iC, fC⟩ := s
  simp only at h
  subst h
  simp only [UINT_MOD] at hm
  simp [init_log_file, lock_mutex, unlock_mutex, MState.mk.injEq, UINT_MOD]
  omega

theorem init_log_file_fresh (r : RealImpls) (s : MState)
    (h : s.logFile = none) (hm : s.mutex < UINT_MOD) (hok : r.fopen_ok = true) :
    init_log_file r s =
      Except.ok { s with logFile := some { records := [], closed := false }, fopenCalls := s.fopenCalls + 1 } := by
  obtain ⟨mu, a1, a2, a3, a4, a5, a6, a7, a8, lF, eL, dC, iC, fC⟩ := s
  simp only at h
  subst h
  simp only [UINT_MOD] at hm
  simp [init_log_file, lock_mutex, unlock_mutex, MState.mk.injEq, UINT_MOD, hok]
  omega

theorem init_log_file_fail (r : RealImpls) (s : MState)
    (h : s.logFile = none) (hok : r.fopen_ok = false) :
    init_log_file r s =
      Except.error (1, { s with mutex := (s.mutex + 1) % UINT_MOD,
                                fopenCalls := s.fopenCalls + 1,
                                stderrLines := s.stderrLines ++ ["error: fopen()"] }) := by
  obtain ⟨mu, a1, a2, a3, a4, a5, a6, a7, a8, lF, eL, dC, iC, fC⟩ := s
  simp only at h
  subst h
  simp [init_log_file, lock_mutex, unlock_mutex, MState.mk.injEq, hok]

theorem malloc_char (r : RealImpls) (size : Nat) (s : MState) (hm : s.mutex < UINT_MOD)
    (hd : s.real_malloc = false → r.dlsym_ok "malloc" = true)
    (hf : s.real_malloc = false → s.logFile = none → r.fopen_ok = true)
    (hwf : s.real_malloc = true → s.logFile.isSome = true) :
    Perun.malloc r size s = Except.ok (r.malloc_impl size, postCall r (AllocCall.malloc size) s) := by
  cases hslot : s.real_malloc with
  | true =>
      obtain ⟨lf, hlf⟩ := Option.isSome_iff_exists.mp (hwf hslot)
      simp [Perun.malloc, postCall, postResolve, kindOf, slotK, symNameK, successCond,
        loggedEvents, appendEvents, hslot, ad_log_char, hm, bne_iff_ne]
  | false =>
      have hdl := hd hslot
      cases hlog : s.logFile with
      | none =>
          have hfo := hf hslot hlog
          simp [Perun.malloc, postCall, postResolve, kindOf, slotK, symNameK, successCond,
            loggedEvents, appendEvents, setSlotK, hslot, hlog, hdl, hfo, init_log_file_fresh,
            ad_log_char, hm, bne_iff_ne]
      | some lf =>
          simp [Perun.malloc, postCall, postResolve, kindOf, slotK, symNameK, successCond,
            loggedEvents, appendEvents, setSlotK, hslot, hlog, hdl, init_log_file_opened,
            ad_log_char, hm, bne_iff_ne]

theorem free_char (r : RealImpls) (p : Nat) (s : MState) (hm : s.mutex < UINT_MOD)
    (hd : s.real_free = false → r.dlsym_ok "free" = true)
    (hf : s.real_free = false → s.logFile = none → r.fopen_ok = true)
    (hwf : s.real_free = true → s.logFile.isSome = true) :
    Perun.free r p s = Except.ok (postCall r (AllocCall.free p) s) := by
  cases hslot : s.real_free with
  | true =>
      obtain ⟨lf, hlf⟩ := Option.isSome_iff_exists.mp (hwf hslot)
      simp [Perun.free, postCall, postResolve, kindOf, slotK, symNameK, successCond,
        loggedEvents, appendEvents, hslot, ad_log_char, hm, bne_iff_ne]
  | false =>
      have hdl := hd hslot
      cases hlog : s.logFile with
      | none =>
          have hfo := hf hslot hlog
          simp [Perun.free, postCall, postResolve, kindOf, slotK, symNameK, successCond,
            loggedEvents, appendEvents, setSlotK, hslot, hlog, hdl, hfo, init_log_file_fresh,
            ad_log_char, hm, bne_iff_ne]
      | some lf =>
          simp [Perun.free, postCall, postResolve, kindOf, slotK, symNameK, successCond,
            loggedEvents, appendEvents, setSlotK, hslot, hlog, hdl, init_log_file_opened,
            ad_log_char, hm, bne_iff_ne]

theorem realloc_char (r : RealImpls) (p size : Nat) (s : MState) (hm : s.mutex < UINT_MOD)
    (hd : s.real_realloc = false → r.dlsym_ok "realloc" = true)
    (hf : s.real_realloc = false → s.logFile = none → r.fopen_ok = true)
    (hwf : s.real_realloc = true → s.logFile.isSome = true) :
    Perun.realloc r p size s = Except.ok (r.realloc_impl p size, postCall r (AllocCall.realloc p size) s) := by
  cases hslot : s.real_realloc with
  | true =>
      obtain ⟨lf, hlf⟩ := Option.isSome_iff_exists.mp (hwf hslot)
      simp [Perun.realloc, postCall, postResolve, kindOf, slotK, symNameK, successCond,
        loggedEvents, appendEvents, hslot, ad_log_char, hm, bne_iff_ne, Function.comp_def, List.append_assoc]
  | false =>
      have hdl := hd hslot
      cases hlog : s.logFile with
      | none =>
          have hfo := hf hslot hlog
          simp [Perun.realloc, postCall, postResolve, kindOf, slotK, symNameK, successCond,
            loggedEvents, appendEvents, setSlotK, hslot, hlog, hdl, hfo, init_log_file_fresh,
            ad_log_char, hm, bne_iff_ne, Function.comp_def, List.append_assoc]
      | some lf =>
          simp [Perun.realloc, postCall, postResolve, kindOf, slotK, symNameK, successCond,
            loggedEvents, appendEvents, setSlotK, hslot, hlog, hdl, init_log_file_opened,
            ad_log_char, hm, bne_iff_ne, Function.comp_def, List.append_assoc]

theorem calloc_char (r : RealImpls) (nmemb size : Nat) (s : MState) (hm : s.mutex < UINT_MOD)
    (hd : s.real_calloc = false → r.dlsym_ok "calloc" = true)
    (hf : s.real_calloc = false → s.logFile = none → r.fopen_ok = true)
    (hwf : s.real_calloc = true → s.logFile.isSome = true) :
    Perun.calloc r nmemb size s = Except.ok (r.calloc_impl nmemb size, postCall r (AllocCall.calloc nmemb size) s) := by
  cases hslot : s.real_calloc with
  | true =>
      obtain ⟨lf, hlf⟩ := Option.isSome_iff_exists.mp (hwf hslot)
      simp [Perun.calloc, postCall, postResolve, kindOf, slotK, symNameK, successCond,
        loggedEvents, appendEvents, hslot, ad_log_char, hm, bne_iff_ne]
  | false =>
      have hdl := hd hslot
      cases hlog : s.logFile with
      | none =>
          have hfo := hf hslot hlog
          simp [Perun.calloc, postCall, postResolve, kindOf, slotK, symNameK, successCond,
            loggedEvents, appendEvents, setSlotK, hslot, hlog, hdl, hfo, init_log_file_fresh,
            ad_log_char, hm, bne_iff_ne]
      | some lf =>
          simp [Perun.calloc, postCall, postResolve, kindOf, slotK, symNameK, successCond,
            loggedEvents, appendEvents, setSlotK, hslot, hlog, hdl, init_log_file_opened,
            ad_log_char, hm, bne_iff_ne]

theorem memalign_char (r : RealImpls) (alignment size : Nat) (s : MState) (hm : s.mutex < UINT_MOD)
    (hd : s.real_memalign = false → r.dlsym_ok "memalign" = true)
    (hf : s.real_memalign = false → s.logFile = none → r.fopen_ok = true)
    (hwf : s.real_memalign = true → s.logFile.isSome = true) :
    Perun.memalign r alignment size s =
      Except.ok (r.memalign_impl alignment size, postCall r (AllocCall.memalign alignment size) s) := by
  cases hslot : s.real_memalign with
  | true =>
      obtain ⟨lf, hlf⟩ := Option.isSome_iff_exists.mp (hwf hslot)
      simp [Perun.memalign, postCall, postResolve, kindOf, slotK, symNameK, successCond,
        loggedEvents, appendEvents, hslot, ad_log_char, hm, bne_iff_ne]
  | false =>
      have hdl := hd hslot
      cases hlog : s.logFile with
      | none =>
          have hfo := hf hslot hlog
          simp [Perun.memalign, postCall, postResolve, kindOf, slotK, symNameK, successCond,
            loggedEvents, appendEvents, setSlotK, hslot, hlog, hdl, hfo, init_log_file_fresh,
            ad_log_char, hm, bne_iff_ne]
      | some lf =>
          simp [Perun.memalign, postCall, postResolve, kindOf, slotK, symNameK, successCond,
            loggedEvents, appendEvents, setSlotK, hslot, hlog, hdl, init_log_file_opened,
            ad_log_char, hm, bne_iff_ne]

theorem posix_memalign_char (r : RealImpls) (alignment size : Nat) (s : MState) (hm : s.mutex < UINT_MOD)
    (hd : s.real_posix_memalign = false → r.dlsym_ok "posix_memalign" = true)
    (hf : s.real_posix_memalign = false → s.logFile = none → r.fopen_ok = true)
    (hwf : s.real_posix_memalign = true → s.logFile.isSome = true) :
    Perun.posix_memalign r alignment size s =
      Except.ok (r.posix_memalign_impl alignment size, postCall r (AllocCall.posix_memalign alignment size) s) := by
  cases hslot : s.real_posix_memalign with
  | true =>
      obtain ⟨lf, hlf⟩ := Option.isSome_iff_exists.mp (hwf hslot)
      simp [Perun.posix_memalign, postCall, postResolve, kindOf, slotK, symNameK, successCond,
        loggedEvents, appendEvents, hslot, ad_log_char, hm, beq_iff_eq]
  | false =>
      have hdl := hd hslot
      cases hlog : s.logFile with
      | none =>
          have hfo := hf hslot hlog
          simp [Perun.posix_memalign, postCall, postResolve, kindOf, slotK, symNameK, successCond,
            loggedEvents, appendEvents, setSlotK, hslot, hlog, hdl, hfo, init_log_file_fresh,
            ad_log_char, hm, beq_iff_eq]
      | some lf =>
          simp [Perun.posix_memalign, postCall, postResolve, kindOf, slotK, symNameK, successCond,
            loggedEvents, appendEvents, setSlotK, hslot, hlog, hdl, init_log_file_opened,
            ad_log_char, hm, beq_iff_eq]

theorem valloc_char (r : RealImpls) (size : Nat) (s : MState) (hm : s.mutex < UINT_MOD)
    (hd : s.real_valloc = false → r.dlsym_ok "valloc" = true)
    (hf : s.real_valloc = false → s.logFile = none → r.fopen_ok = true)
    (hwf : s.real_valloc = true → s.logFile.isSome = true) :
    Perun.valloc r size s = Except.ok (r.valloc_impl size, postCall r (AllocCall.valloc size) s) := by
  cases hslot : s.real_valloc with
  | true =>
      obtain ⟨lf, hlf⟩ := Option.isSome_iff_exists.mp (hwf hslot)
      simp [Perun.valloc, postCall, postResolve, kindOf, slotK, symNameK, successCond,
        loggedEvents, appendEvents, hslot, ad_log_char, hm, bne_iff_ne]
  | false =>
      have hdl := hd hslot
      cases hlog : s.logFile with
      | none =>
          have hfo := hf hslot hlog
          simp [Perun.valloc, postCall, postResolve, kindOf, slotK, symNameK, successCond,
            loggedEvents, appendEvents, setSlotK, hslot, hlog, hdl, hfo, init_log_file_fresh,
            ad_log_char, hm, bne_iff_ne]
      | some lf =>
          simp [Perun.valloc, postCall, postResolve, kindOf, slotK, symNameK, successCond,
            loggedEvents, appendEvents, setSlotK, hslot, hlog, hdl, init_log_file_opened,
            ad_log_char, hm, bne_iff_ne]

theorem aligned_alloc_char (r : RealImpls) (alignment size : Nat) (s : MState) (hm : s.mutex < UINT_MOD)
    (hd : s.real_aligned_alloc = false → r.dlsym_ok "aligned_alloc" = true)
    (hf : s.real_aligned_alloc = false → s.logFile = none → r.fopen_ok = true)
    (hwf : s.real_aligned_alloc = true → s.logFile.isSome = true) :
    Perun.aligned_alloc r alignment size s =
      Except.ok (r.aligned_alloc_impl alignment size, postCall r (AllocCall.aligned_alloc alignment size) s) := by
  cases hslot : s.real_aligned_alloc with
  | true =>
      obtain ⟨lf, hlf⟩ := Option.isSome_iff_exists.mp (hwf hslot)
      simp [Perun.aligned_alloc, postCall, postResolve, kindOf, slotK, symNameK, successCond,
        loggedEvents, appendEvents, hslot, ad_log_char, hm, bne_iff_ne]
  | false =>
      have hdl := hd hslot
      cases hlog : s.logFile with
      | none =>
          have hfo := hf hslot hlog
          simp [Perun.aligned_alloc, postCall, postResolve, kindOf, slotK, symNameK, successCond,
            loggedEvents, appendEvents, setSlotK, hslot, hlog, hdl, hfo, init_log_file_fresh,
            ad_log_char, hm, bne_iff_ne]
      | some lf =>
          simp [Perun.aligned_alloc, postCall, postResolve, kindOf, slotK, symNameK, successCond,
            loggedEvents, appendEvents, setSlotK, hslot, hlog, hdl, init_log_file_opened,
            ad_log_char, hm, bne_iff_ne]


theorem runCall_err_dlsym (r : RealImpls) (c : AllocCall) (s : MState)
    (h1 : slotK (kindOf c) s = false) (h2 : r.dlsym_ok (symNameK (kindOf c)) = false) :
    runCall r c s = Except.error (1, { s with
      dlsymCalls := s.dlsymCalls ++ [(symNameK (kindOf c), s.mutex)],
      stderrLines := s.stderrLines ++ [dlsymDiag (kindOf c)] }) := by
  cases c <;>
    simp_all [runCall, Perun.malloc, Perun.free, Perun.realloc, Perun.calloc, Perun.memalign,
      Perun.posix_memalign, Perun.valloc, Perun.aligned_alloc, slotK, kindOf, symNameK, dlsymDiag]

theorem runCall_err_fopen (r : RealImpls) (c : AllocCall) (s : MState)
    (h1 : slotK (kindOf c) s = false) (h2 : r.dlsym_ok (symNameK (kindOf c)) = true)
    (h3 : s.logFile = none) (h4 : r.fopen_ok = false) :
    runCall r c s = Except.error (1,
      { setSlotK (kindOf c) s with
        mutex := (s.mutex + 1) % UINT_MOD,
        dlsymCalls := s.dlsymCalls ++ [(symNameK (kindOf c), s.mutex)],
        fopenCalls := s.fopenCalls + 1,
        stderrLines := s.stderrLines ++ ["error: fopen()"] }) := by
  cases c <;>
    simp_all [runCall, Perun.malloc, Perun.free, Perun.realloc, Perun.calloc, Perun.memalign,
      Perun.posix_memalign, Perun.valloc, Perun.aligned_alloc, slotK, setSlotK, kindOf, symNameK,
      init_log_file_fail]

theorem runCall_char (r : RealImpls) (c : AllocCall) (s : MState) (hm : s.mutex < UINT_MOD)
    (hd : slotK (kindOf c) s = false → r.dlsym_ok (symNameK (kindOf c)) = true)
    (hf : slotK (kindOf c) s = false → s.logFile = none → r.fopen_ok = true)
    (hwf : slotK (kindOf c) s = true → s.logFile.isSome = true) :
    runCall r c s = Except.ok (wrappedResult r c, postCall r c s) := by
  cases c with
  | malloc size => simp [runCall, malloc_char r size s hm hd hf hwf, wrappedResult]
  | free p => simp [runCall, free_char r p s hm hd hf hwf, wrappedResult]
  | realloc p size => simp [runCall, realloc_char r p size s hm hd hf hwf, wrappedResult]
  | calloc n size => simp [runCall, calloc_char r n size s hm hd hf hwf, wrappedResult]
  | memalign a size => simp [runCall, memalign_char r a size s hm hd hf hwf, wrappedResult]
  | posix_memalign a size => simp [runCall, posix_memalign_char r a size s hm hd hf hwf, wrappedResult]
  | valloc size => simp [runCall, valloc_char r size s hm hd hf hwf, wrappedResult]
  | aligned_alloc a size => simp [runCall, aligned_alloc_char r a size s hm hd hf hwf, wrappedResult]

theorem runCall_ok_inv (r : RealImpls) (c : AllocCall) (s : MState) (v : RetVal) (s' : MState)
    (hm : s.mutex < UINT_MOD)
    (hwf : slotK (kindOf c) s = true → s.logFile.isSome = true)
    (h : runCall r c s = Except.ok (v, s')) :
    v = wrappedResult r c ∧ s' = postCall r c s := by
  by_cases hslot : slotK (kindOf c) s = true
  · rw [runCall_char r c s hm (fun hh => by simp [hh] at hslot) (fun hh => by simp [hh] at hslot) hwf] at h
    simp only [Except.ok.injEq, Prod.mk.injEq] at h
    exact ⟨h.1.symm, h.2.symm⟩
  · have hslot' : slotK (kindOf c) s = false := by
      cases hx : slotK (kindOf c) s
      · rfl
      · exact absurd hx hslot
    cases hdl : r.dlsym_ok (symNameK (kindOf c)) with
    | false =>
        rw [runCall_err_dlsym r c s hslot' hdl] at h
        cases h
    | true =>
        cases hlog : s.logFile with
        | some lf =>
            rw [runCall_char r c s hm (fun _ => hdl)
              (fun _ hnone => by rw [hlog] at hnone; cases hnone)
              (fun hh => by rw [hh] at hslot'; cases hslot')] at h
            simp only [Except.ok.injEq, Prod.mk.injEq] at h
            exact ⟨h.1.symm, h.2.symm⟩
        | none =>
            cases hfo : r.fopen_ok with
            | false =>
                rw [runCall_err_fopen r c s hslot' hdl hlog hfo] at h
                cases h
            | true =>
                rw [runCall_char r c s hm (fun _ => hdl) (fun _ _ => hfo)
                  (fun hh => by rw [hh] at hslot'; cases hslot')] at h
                simp only [Except.ok.injEq, Prod.mk.injEq] at h
                exact ⟨h.1.symm, h.2.symm⟩

theorem setSlotK_mutex (k : OpKind) (s : MState) : (setSlotK k s).mutex = s.mutex := by
  cases k <;> rfl

theorem setSlotK_logFile (k : OpKind) (s : MState) : (setSlotK k s).logFile = s.logFile := by
  cases k <;> rfl

theorem setSlotK_dlsymCalls (k : OpKind) (s : MState) : (setSlotK k s).dlsymCalls = s.dlsymCalls := by
  cases k <;> rfl

theorem setSlotK_fopenCalls (k : OpKind) (s : MState) : (setSlotK k s).fopenCalls = s.fopenCalls := by
  cases k <;> rfl

theorem setSlotK_implCalls (k : OpKind) (s : MState) : (setSlotK k s).implCalls = s.implCalls := by
  cases k <;> rfl

theorem slotK_setSlotK (k q : OpKind) (s : MState) :
    slotK k (setSlotK q s) = if k = q then true else slotK k s := by
  cases k <;> cases q <;> simp [slotK, setSlotK]

theorem postResolve_mutex (c : AllocCall) (s : MState) : (postResolve c s).mutex = s.mutex := by
  by_cases hslot : slotK (kindOf c) s = true <;>
    cases hlog : s.logFile <;>
      simp [postResolve, hslot, hlog, setSlotK_mutex, setSlotK_logFile]

theorem postCall_mutex (r : RealImpls) (c : AllocCall) (s : MState) :
    (postCall r c s).mutex = s.mutex := by
  unfold postCall appendEvents
  split <;> simp [postResolve_mutex]

theorem postResolve_dlsymCalls (c : AllocCall) (s : MState) :
    (postResolve c s).dlsymCalls =
      s.dlsymCalls ++ (if slotK (kindOf c) s = true then [] else [(symNameK (kindOf c), s.mutex)]) := by
  by_cases hslot : slotK (kindOf c) s = true <;>
    cases hlog : s.logFile <;>
      simp [postResolve, hslot, hlog, setSlotK_dlsymCalls, setSlotK_logFile]

theorem postCall_dlsymCalls (r : RealImpls) (c : AllocCall) (s : MState) :
    (postCall r c s).dlsymCalls =
      s.dlsymCalls ++ (if slotK (kindOf c) s = true then [] else [(symNameK (kindOf c), s.mutex)]) := by
  unfold postCall appendEvents
  split <;> simp [postResolve_dlsymCalls]

theorem postResolve_logFile (c : AllocCall) (s : MState) :
    (postResolve c s).logFile =
      if slotK (kindOf c) s = false ∧ s.logFile = none then some { records := [], closed := false }
      else s.logFile := by
  by_cases hslot : slotK (kindOf c) s = true <;>
    cases hlog : s.logFile <;>
      simp [postResolve, hslot, hlog, setSlotK_logFile]

theorem postResolve_fopenCalls (c : AllocCall) (s : MState) :
    (postResolve c s).fopenCalls =
      s.fopenCalls + (if slotK (kindOf c) s = false ∧ s.logFile = none then 1 else 0) := by
  by_cases hslot : slotK (kindOf c) s = true <;>
    cases hlog : s.logFile <;>
      simp [postResolve, hslot, hlog, setSlotK_fopenCalls, setSlotK_logFile]

theorem postCall_fopenCalls (r : RealImpls) (c : AllocCall) (s : MState) :
    (postCall r c s).fopenCalls =
      s.fopenCalls + (if slotK (kindOf c) s = false ∧ s.logFile = none then 1 else 0) := by
  unfold postCall appendEvents
  split <;> simp [postResolve_fopenCalls]

theorem postResolve_slotK (k : OpKind) (c : AllocCall) (s : MState) :
    slotK k (postResolve c s) = if k = kindOf c then true else slotK k s := by
  cases hlog : s.logFile <;> cases c <;> cases k <;>
    simp [postResolve, slotK, setSlotK, kindOf, symNameK, hlog] <;>
    split_ifs <;> simp_all

theorem postCall_slotK (k : OpKind) (r : RealImpls) (c : AllocCall) (s : MState) :
    slotK k (postCall r c s) = if k = kindOf c then true else slotK k s := by
  have h := postResolve_slotK k c s
  unfold postCall appendEvents
  split <;> cases k <;> simp_all [slotK]

theorem logRecords_postCall (r : RealImpls) (c : AllocCall) (s : MState)
    (hwf : slotK (kindOf c) s = true → s.logFile.isSome = true) :
    logRecords (postCall r c s) =
      logRecords s ++
        (if s.mutex = 0 ∧ successCond r c = true then (loggedEvents r c).map LogRecord.event else []) := by
  by_cases hslot : slotK (kindOf c) s = true
  · obtain ⟨lf, hlfs⟩ := Option.isSome_iff_exists.mp (hwf hslot)
    by_cases hcond : s.mutex = 0 ∧ successCond r c = true <;>
      simp [postCall, appendEvents, logRecords, postResolve_logFile, hslot, hlfs, hcond]
  · have hslot' : slotK (kindOf c) s = false := by
      cases hx : slotK (kindOf c) s
      · rfl
      · exact absurd hx hslot
    cases hlog : s.logFile <;>
      by_cases hcond : s.mutex = 0 ∧ successCond r c = true <;>
        simp [postCall, appendEvents, logRecords, postResolve_logFile, hslot', hlog, hcond]

theorem eventRecords_postCall (r : RealImpls) (c : AllocCall) (s : MState)
    (hwf : slotK (kindOf c) s = true → s.logFile.isSome = true) :
    eventRecords (postCall r c s) =
      eventRecords s ++ (if s.mutex = 0 ∧ successCond r c = true then loggedEvents r c else []) := by
  unfold eventRecords
  rw [logRecords_postCall r c s hwf]
  split_ifs <;> simp [List.filterMap_append, List.filterMap_map, Function.comp_def]

theorem postCall_logFile_isSome (r : RealImpls) (c : AllocCall) (s : MState) :
    (postCall r c s).logFile.isSome = (s.logFile.isSome || !slotK (kindOf c) s) := by
  by_cases hslot : slotK (kindOf c) s = true
  · by_cases hcond : s.mutex = 0 ∧ successCond r c = true <;>
      cases hlog : s.logFile <;>
        simp [postCall, appendEvents, postResolve_logFile, hslot, hcond, hlog]
  · have hslot' : slotK (kindOf c) s = false := by
      cases hx : slotK (kindOf c) s
      · rfl
      · exact absurd hx hslot
    by_cases hcond : s.mutex = 0 ∧ successCond r c = true <;>
      cases hlog : s.logFile <;>
        simp [postCall, appendEvents, postResolve_logFile, hslot', hcond, hlog]

theorem slotK_initState (k : OpKind) : slotK k initState = false := by
  cases k <;> rfl

theorem symNameK_inj : ∀ a b : OpKind, symNameK a = symNameK b → a = b := by
  decide

theorem loggedEvents_length (r : RealImpls) (c : AllocCall) :
    (loggedEvents r c).length =
      (match kindOf c with | OpKind.realloc => 2 | _ => (1 : Nat)) := by
  cases c <;> rfl


theorem Reach_init : Reach initState := by
  constructor
  · rfl
  refine ⟨?_, ?_, ?_, ?_⟩
  · intro k hk
    rw [slotK_initState] at hk
    cases hk
  · intro k
    exact ⟨fun _ => rfl, by simp [dlsymCount, initState]⟩
  · intro _
    rfl
  · intro hk
    simp [initState] at hk

theorem Reach_mutex_lt (s : MState) (hR : Reach s) : s.mutex < UINT_MOD := by
  rw [hR.1]
  simp [UINT_MOD]

theorem Reach_step (r : RealImpls) (c : AllocCall) (s : MState) (v : RetVal) (s' : MState)
    (hR : Reach s) (h : runCall r c s = Except.ok (v, s')) : Reach s' := by
  obtain ⟨hmu, hs, hc, hf0, hf1⟩ := hR
  have hm : s.mutex < UINT_MOD := by rw [hmu]; simp [UINT_MOD]
  obtain ⟨-, hps⟩ := runCall_ok_inv r c s v s' hm (hs (kindOf c)) h
  subst hps
  refine ⟨?_, ?_, ?_, ?_, ?_⟩
  · rw [postCall_mutex]
    exact hmu
  · intro k _
    rw [postCall_logFile_isSome]
    cases hsl : slotK (kindOf c) s
    · simp
    · simp [hs (kindOf c) hsl]
  · intro k
    have hd := postCall_dlsymCalls r c s
    constructor
    · intro hk0
      rw [postCall_slotK] at hk0
      by_cases hkc : k = kindOf c
      · rw [if_pos hkc] at hk0
        cases hk0
      · rw [if_neg hkc] at hk0
        show dlsymCount (symNameK k) (postCall r c s) = 0
        unfold dlsymCount
        rw [hd, List.filter_append, List.length_append]
        have h1 : dlsymCount (symNameK k) s = 0 := (hc k).1 hk0
        unfold dlsymCount at h1
        rw [h1]
        have hne : (symNameK (kindOf c) == symNameK k) = false := by
          rw [beq_eq_false_iff_ne]
          intro hEq
          exact hkc (symNameK_inj (kindOf c) k hEq).symm
        split_ifs <;> simp [List.filter, hne]
    · show dlsymCount (symNameK k) (postCall r c s) ≤ 1
      unfold dlsymCount
      rw [hd, List.filter_append, List.length_append]
      by_cases hkc : k = kindOf c
      · subst hkc
        by_cases hsl : slotK (kindOf c) s = true
        · rw [if_pos hsl]
          simpa using (hc (kindOf c)).2
        · have hsl' : slotK (kindOf c) s = false := by
            cases hx : slotK (kindOf c) s
            · rfl
            · exact absurd hx hsl
          have h1 : dlsymCount (symNameK (kindOf c)) s = 0 := (hc (kindOf c)).1 hsl'
          unfold dlsymCount at h1
          rw [h1, if_neg (by simp [hsl'])]
          simp [List.filter]
      · have hne : (symNameK (kindOf c) == symNameK k) = false := by
          rw [beq_eq_false_iff_ne]
          intro hEq
          exact hkc (symNameK_inj (kindOf c) k hEq).symm
        have h2 := (hc k).2
        unfold dlsymCount at h2
        split_ifs <;> simpa [List.filter, hne] using h2
  · intro hnone
    have hfalse : (postCall r c s).logFile.isSome = false := by
      rw [hnone]
      rfl
    rw [postCall_logFile_isSome] at hfalse
    simp only [Bool.or_eq_false_iff, Bool.not_eq_false'] at hfalse
    obtain ⟨hno, hsl⟩ := hfalse
    have := hs (kindOf c) hsl
    rw [hno] at this
    cases this
  · intro _
    rw [postCall_fopenCalls]
    by_cases hsl : slotK (kindOf c) s = true
    · rw [if_neg (by simp [hsl])]
      simpa using hf1 (hs (kindOf c) hsl)
    · have hsl' : slotK (kindOf c) s = false := by
        cases hx : slotK (kindOf c) s
        · rfl
        · exact absurd hx hsl
      cases hlog : s.logFile with
      | none =>
          rw [if_pos ⟨hsl', rfl⟩, hf0 hlog]
      | some lf =>
          rw [if_neg (by simp [hlog])]
          simpa using hf1 (by simp [hlog])

theorem Reach_runCalls (r : RealImpls) (cs : List AllocCall) (s s' : MState)
    (hR : Reach s) (h : runCalls r cs s = Except.ok s') : Reach s' := by
  induction cs generalizing s with
  | nil =>
      simp only [runCalls, Except.ok.injEq] at h
      rw [← h]
      exact hR
  | cons c cs ih =>
      simp only [runCalls] at h
      cases hstep : runCall r c s with
      | error e =>
          rw [hstep] at h
          cases h
      | ok p =>
          obtain ⟨v, s1⟩ := p
          rw [hstep] at h
          exact ih s1 (Reach_step r c s v s1 hR hstep) h

theorem runCalls_open_preserve (r : RealImpls) (cs : List AllocCall) (s s' : MState)
    (hR : Reach s) (hsome : s.logFile.isSome = true) (hfop : s.fopenCalls = 1)
    (h : runCalls r cs s = Except.ok s') :
    s'.logFile.isSome = true ∧ s'.fopenCalls = 1 := by
  induction cs generalizing s with
  | nil =>
      simp only [runCalls, Except.ok.injEq] at h
      rw [← h]
      exact ⟨hsome, hfop⟩
  | cons c cs ih =>
      simp only [runCalls] at h
      cases hstep : runCall r c s with
      | error e =>
          rw [hstep] at h
          cases h
      | ok p =>
          obtain ⟨v, s1⟩ := p
          rw [hstep] at h
          have hR1 := Reach_step r c s v s1 hR hstep
          obtain ⟨-, hps⟩ := runCall_ok_inv r c s v s1 (Reach_mutex_lt s hR) (hR.2.1 (kindOf c)) hstep
          subst hps
          refine ih (postCall r c s) hR1 ?_ ?_ h
          · rw [postCall_logFile_isSome, hsome]
            rfl
          · rw [postCall_fopenCalls]
            obtain ⟨lf, hlf⟩ := Option.isSome_iff_exists.mp hsome
            rw [if_neg (by simp [hlf]), hfop]


/-! The claim theorems. -/

/-- C7: `lock_mutex` (enter) increments the calling thread's counter and
returns its value before the increment; `unlock_mutex` (leave) decrements
it; one enter composed with one leave restores the whole state. -/
theorem C7_guard_enter_leave (s : MState) (h : s.mutex + 1 < UINT_MOD) :
    (lock_mutex s).1 = s.mutex ∧
    ((lock_mutex s).2).mutex = s.mutex + 1 ∧
    unlock_mutex (lock_mutex s).2 = s ∧
    (0 < s.mutex → (unlock_mutex s).mutex = s.mutex - 1) := by
  refine ⟨rfl, ?_, unlock_lock s (by omega), ?_⟩
  · have hlt : s.mutex + 1 < UINT_MOD := h
    simp only [lock_mutex]
    exact Nat.mod_eq_of_lt hlt
  · intro hpos
    have hlt : s.mutex + 1 < UINT_MOD := h
    simp only [unlock_mutex, UINT_MOD] at *
    omega

/-- C7 witness at the concrete counter value 3. -/
theorem C7_guard_enter_leave_witness :
    (lock_mutex sMutex3).1 = sMutex3.mutex ∧
    ((lock_mutex sMutex3).2).mutex = sMutex3.mutex + 1 ∧
    unlock_mutex (lock_mutex sMutex3).2 = sMutex3 ∧
    (unlock_mutex sMutex3).mutex = sMutex3.mutex - 1 := by
  obtain ⟨h1, h2, h3, h4⟩ := C7_guard_enter_leave sMutex3 (by decide)
  exact ⟨h1, h2, h3, h4 (by decide)⟩

/-- C4: when the log stream was opened, `finalize` appends the terminal
`EXIT` marker (carrying the process-time value) as the last record and
closes the stream, exactly once - also when the record list is empty, i.e.
when no allocation was ever logged. -/
theorem C4_finalize_exit_mark (r : RealImpls) (s : MState) (lf : LogFileState)
    (h : s.logFile = some lf)
    (hnoexit : (lf.records.filter isExitRecord).length = 0) :
    (finalize r s).logFile = some { records := lf.records ++ [LogRecord.exitMark r.clock], closed := true } ∧
    ((lf.records ++ [LogRecord.exitMark r.clock]).filter isExitRecord).length = 1 := by
  constructor
  · simp [finalize, h]
  · rw [List.filter_append, List.length_append, hnoexit]
    rfl

/-- C4 witness: a stream opened with no allocation events. -/
theorem C4_finalize_exit_mark_witness :
    (finalize oracleA sOpen).logFile =
      some { records := [LogRecord.exitMark oracleA.clock], closed := true } ∧
    (([] ++ [LogRecord.exitMark oracleA.clock]).filter isExitRecord).length = 1 := by
  have h := C4_finalize_exit_mark oracleA sOpen { records := [], closed := false } rfl (by decide)
  exact h

/-- C5: when an interceptor finds its slot unresolved and `dlsym` returns
`NULL`, the process exits with status 1 after printing the `dlsym`
diagnostic to `stderr`, and the original implementation is never invoked
(the `implCalls` observation is unchanged). -/
theorem C5_dlsym_failure_fatal (r : RealImpls) (c : AllocCall) (s : MState)
    (h1 : slotK (kindOf c) s = false)
    (h2 : r.dlsym_ok (symNameK (kindOf c)) = false) :
    runCall r c s = Except.error (1, { s with
      dlsymCalls := s.dlsymCalls ++ [(symNameK (kindOf c), s.mutex)],
      stderrLines := s.stderrLines ++ [dlsymDiag (kindOf c)] }) ∧
    (afterRun (runCall r c s)).implCalls = s.implCalls ∧ (1 : Nat) ≠ 0 := by
  refine ⟨runCall_err_dlsym r c s h1 h2, ?_, by omega⟩
  rw [runCall_err_dlsym r c s h1 h2]
  rfl

/-- C5 witness at a fresh process whose resolver cannot find `malloc`. -/
theorem C5_dlsym_failure_fatal_witness :
    runCall oracleB (AllocCall.malloc 64) initState = Except.error (1, { initState with
      dlsymCalls := initState.dlsymCalls ++ [(symNameK (kindOf (AllocCall.malloc 64)), initState.mutex)],
      stderrLines := initState.stderrLines ++ [dlsymDiag (kindOf (AllocCall.malloc 64))] }) ∧
    (afterRun (runCall oracleB (AllocCall.malloc 64) initState)).implCalls = initState.implCalls ∧ (1 : Nat) ≠ 0 :=
  C5_dlsym_failure_fatal oracleB (AllocCall.malloc 64) initState (by decide) (by decide)

/-- C8: whenever an interceptor returns (rather than exiting), the value it
hands back to the caller is exactly what the wrapped original
implementation produced - the pointer for the allocate family, the status
code and out-parameter for `posix_memalign` - on success and failure of the
wrapped call alike. -/
theorem C8_return_value_unmodified (r : RealImpls) (c : AllocCall) (s : MState)
    (v : RetVal) (s' : MState)
    (hm : s.mutex < UINT_MOD)
    (hwf : slotK (kindOf c) s = true → s.logFile.isSome = true)
    (h : runCall r c s = Except.ok (v, s')) :
    v = wrappedResult r c :=
  (runCall_ok_inv r c s v s' hm hwf h).1

/-- C8 witness: `posix_memalign` returns the wrapped status and
out-parameter. -/
theorem C8_return_value_unmodified_witness :
    retOf (runCall oracleA (AllocCall.posix_memalign 16 64) initState) =
      wrappedResult oracleA (AllocCall.posix_memalign 16 64) :=
  C8_return_value_unmodified oracleA (AllocCall.posix_memalign 16 64) initState
    (retOf (runCall oracleA (AllocCall.posix_memalign 16 64) initState))
    (afterRun (runCall oracleA (AllocCall.posix_memalign 16 64) initState))
    (by decide) (by decide) (by rfl)

/-- C1 (amended): a non-exiting interceptor call appends exactly one event
block if and only if the thread's guard counter was zero on entry and the
per-operation success condition holds - except `realloc`, which in that
case appends exactly two blocks (its own record plus the synthetic free
record); nested calls (counter nonzero) append zero blocks. -/
theorem C1_event_emission_count (r : RealImpls) (c : AllocCall) (s : MState)
    (v : RetVal) (s' : MState)
    (hm : s.mutex < UINT_MOD)
    (hwf : slotK (kindOf c) s = true → s.logFile.isSome = true)
    (h : runCall r c s = Except.ok (v, s')) :
    (eventRecords s').length =
      (eventRecords s).length +
        (if s.mutex = 0 ∧ successCond r c = true
          then (match kindOf c with | OpKind.realloc => 2 | _ => (1 : Nat))
          else 0) := by
  obtain ⟨-, hps⟩ := runCall_ok_inv r c s v s' hm hwf h
  subst hps
  rw [eventRecords_postCall r c s hwf, List.length_append]
  split_ifs with hcond
  · rw [loggedEvents_length]
  · rfl

/-- C1 witness: one outermost successful `malloc` appends one event. -/
theorem C1_event_emission_count_witness :
    (eventRecords (afterRun (runCall oracleA (AllocCall.malloc 64) initState))).length =
      (eventRecords initState).length +
        (if initState.mutex = 0 ∧ successCond oracleA (AllocCall.malloc 64) = true
          then (match kindOf (AllocCall.malloc 64) with | OpKind.realloc => 2 | _ => (1 : Nat))
          else 0) :=
  C1_event_emission_count oracleA (AllocCall.malloc 64) initState
    (retOf (runCall oracleA (AllocCall.malloc 64) initState))
    (afterRun (runCall oracleA (AllocCall.malloc 64) initState))
    (by decide) (by decide) (by rfl)

/-- C1 counterexample: an outermost successful `realloc` call appends two
event blocks, so "exactly one event is emitted iff the call is outermost
and successful" fails at this input (the right side holds, the left does
not). -/
theorem C1_cex_realloc_two_events :
    ¬ (((eventRecords (afterRun (runCall oracleA (AllocCall.realloc 5 64) initState))).length = 1) ↔
        (initState.mutex = 0 ∧ successCond oracleA (AllocCall.realloc 5 64) = true)) := by
  decide

/-- C2: an outermost `realloc(ptr, size)` call on a non-null pointer whose
wrapped call returns a non-null new address appends exactly two records, in
order: the realloc record with the new address and the requested size,
immediately followed by a free record of size 0 for the old pointer
value. -/
theorem C2_realloc_emits_realloc_then_free (r : RealImpls) (p size : Nat) (s : MState)
    (v : RetVal) (s' : MState)
    (hm : s.mutex < UINT_MOD)
    (hwf : slotK OpKind.realloc s = true → s.logFile.isSome = true)
    (hp : p ≠ 0) (hout : s.mutex = 0)
    (hnew : r.realloc_impl p size ≠ 0)
    (h : runCall r (AllocCall.realloc p size) s = Except.ok (v, s')) :
    eventRecords s' =
      eventRecords s ++
        [{ time := r.clock, allocator := "realloc", size := size, ptr := r.realloc_impl p size, frames := r.backtraceLines },
         { time := r.clock, allocator := "free", size := 0, ptr := p, frames := r.backtraceLines }] := by
  obtain ⟨-, hps⟩ := runCall_ok_inv r (AllocCall.realloc p size) s v s' hm hwf h
  subst hps
  rw [eventRecords_postCall r (AllocCall.realloc p size) s hwf]
  rw [if_pos ⟨hout, by simp [successCond, bne_iff_ne, hnew]⟩]
  rfl

/-- C2 witness: a concrete outermost successful `realloc`. -/
theorem C2_realloc_emits_realloc_then_free_witness :
    eventRecords (afterRun (runCall oracleA (AllocCall.realloc 5 64) initState)) =
      eventRecords initState ++
        [{ time := oracleA.clock, allocator := "realloc", size := 64, ptr := oracleA.realloc_impl 5 64, frames := oracleA.backtraceLines },
         { time := oracleA.clock, allocator := "free", size := 0, ptr := 5, frames := oracleA.backtraceLines }] :=
  C2_realloc_emits_realloc_then_free oracleA 5 64 initState
    (retOf (runCall oracleA (AllocCall.realloc 5 64) initState))
    (afterRun (runCall oracleA (AllocCall.realloc 5 64) initState))
    (by decide) (by decide) (by decide) (by decide) (by decide) (by rfl)

/-- C3 (amended): symbol resolution runs exactly when the slot is still
unresolved, and it runs with the guard counter at the value it had on entry
to the interceptor - the guard is not additionally held around the `dlsym`
lookup (it is held only inside `init_log_file` and `ad_log`), so on an
outermost first call the counter is zero while `dlsym` executes. -/
theorem C3_dlsym_runs_with_entry_counter (r : RealImpls) (c : AllocCall) (s : MState)
    (hm : s.mutex < UINT_MOD)
    (hwf : slotK (kindOf c) s = true → s.logFile.isSome = true) :
    (afterRun (runCall r c s)).dlsymCalls =
      s.dlsymCalls ++
        (if slotK (kindOf c) s = true then [] else [(symNameK (kindOf c), s.mutex)]) := by
  by_cases hslot : slotK (kindOf c) s = true
  · rw [runCall_char r c s hm (fun hh => by simp [hh] at hslot) (fun hh => by simp [hh] at hslot) hwf]
    simp [afterRun, postCall_dlsymCalls, hslot]
  · have hslot' : slotK (kindOf c) s = false := by
      cases hx : slotK (kindOf c) s
      · rfl
      · exact absurd hx hslot
    cases hdl : r.dlsym_ok (symNameK (kindOf c)) with
    | false =>
        rw [runCall_err_dlsym r c s hslot' hdl]
        simp [afterRun, hslot']
    | true =>
        cases hlog : s.logFile with
        | some lf =>
            rw [runCall_char r c s hm (fun _ => hdl)
              (fun _ hn => by rw [hlog] at hn; cases hn)
              (fun hh => by rw [hh] at hslot'; cases hslot')]
            simp [afterRun, postCall_dlsymCalls, hslot']
        | none =>
            cases hfo : r.fopen_ok with
            | true =>
                rw [runCall_char r c s hm (fun _ => hdl) (fun _ _ => hfo)
                  (fun hh => by rw [hh] at hslot'; cases hslot')]
                simp [afterRun, postCall_dlsymCalls, hslot']
            | false =>
                rw [runCall_err_fopen r c s hslot' hdl hlog hfo]
                simp [afterRun, hslot', setSlotK_dlsymCalls]

/-- C3 witness: a first `free` call records its `dlsym` run with the entry
counter value. -/
theorem C3_dlsym_runs_with_entry_counter_witness :
    (afterRun (runCall oracleA (AllocCall.free 77) initState)).dlsymCalls =
      initState.dlsymCalls ++
        (if slotK (kindOf (AllocCall.free 77)) initState = true then []
         else [(symNameK (kindOf (AllocCall.free 77)), initState.mutex)]) :=
  C3_dlsym_runs_with_entry_counter oracleA (AllocCall.free 77) initState (by decide) (by decide)

/-- C3 counterexample: on a fresh outermost `malloc` call, `dlsym` executes
while the calling thread's guard counter is zero, refuting "the counter is
nonzero whenever symbol resolution executes". -/
theorem C3_cex_dlsym_runs_unguarded :
    ¬ (∀ q ∈ (afterRun (runCall oracleA (AllocCall.malloc 64) initState)).dlsymCalls, q.2 ≠ 0) := by
  decide

/-- C6: if the log stream cannot be created on first use (`fopen` fails),
the process exits with status 1 after printing the `fopen` diagnostic;
otherwise a run that performs any number of interceptor calls creates
exactly one stream (`fopen` runs exactly once). -/
theorem C6_sink_fatal_or_single_stream :
    (∀ (r : RealImpls) (s : MState), s.logFile = none → r.fopen_ok = false →
        init_log_file r s =
          Except.error (1, { s with mutex := (s.mutex + 1) % UINT_MOD,
                                    fopenCalls := s.fopenCalls + 1,
                                    stderrLines := s.stderrLines ++ ["error: fopen()"] })) ∧
    (∀ (r : RealImpls) (cs : List AllocCall) (s' : MState), cs ≠ [] →
        runCalls r cs initState = Except.ok s' → s'.fopenCalls = 1) := by
  constructor
  · exact fun r s h1 h2 => init_log_file_fail r s h1 h2
  · intro r cs s' hne h
    cases cs with
    | nil => exact absurd rfl hne
    | cons c rest =>
        simp only [runCalls] at h
        cases hstep : runCall r c initState with
        | error e =>
            rw [hstep] at h
            cases h
        | ok p =>
            obtain ⟨v, s1⟩ := p
            rw [hstep] at h
            have hR1 := Reach_step r c initState v s1 Reach_init hstep
            obtain ⟨-, hps⟩ := runCall_ok_inv r c initState v s1 (by decide)
              (fun hk => by rw [slotK_initState] at hk; cases hk) hstep
            subst hps
            have hsome1 : (postCall r c initState).logFile.isSome = true := by
              rw [postCall_logFile_isSome, slotK_initState]
              rfl
            have hfop1 : (postCall r c initState).fopenCalls = 1 := by
              rw [postCall_fopenCalls, slotK_initState]
              rfl
            exact (runCalls_open_preserve r rest (postCall r c initState) s' hR1 hsome1 hfop1 h).2

/-- C6 witness: a failing `fopen` exits with a diagnostic; a succeeding run
of one `malloc` creates exactly one stream. -/
theorem C6_sink_fatal_or_single_stream_witness :
    init_log_file oracleC initState =
      Except.error (1, { initState with mutex := (initState.mutex + 1) % UINT_MOD,
                                        fopenCalls := initState.fopenCalls + 1,
                                        stderrLines := initState.stderrLines ++ ["error: fopen()"] }) ∧
    (afterRuns (runCalls oracleA [AllocCall.malloc 64] initState)).fopenCalls = 1 := by
  constructor
  · exact C6_sink_fatal_or_single_stream.1 oracleC initState rfl rfl
  · exact C6_sink_fatal_or_single_stream.2 oracleA [AllocCall.malloc 64]
      (afterRuns (runCalls oracleA [AllocCall.malloc 64] initState)) (by simp) (by rfl)

/-- C9: over any non-exiting process execution from the initial state, each
operation's `dlsym` resolution runs at most once, no matter how many calls
the execution makes. -/
theorem C9_resolution_at_most_once (r : RealImpls) (cs : List AllocCall) (s' : MState)
    (h : runCalls r cs initState = Except.ok s') :
    ∀ k : OpKind, dlsymCount (symNameK k) s' ≤ 1 :=
  fun k => ((Reach_runCalls r cs initState s' Reach_init h).2.2.1 k).2

/-- C9 witness: three calls, two of them `malloc`, resolve `malloc` once. -/
theorem C9_resolution_at_most_once_witness :
    dlsymCount (symNameK OpKind.malloc)
      (afterRuns (runCalls oracleA [AllocCall.malloc 64, AllocCall.malloc 32, AllocCall.free 4096] initState)) ≤ 1 :=
  C9_resolution_at_most_once oracleA [AllocCall.malloc 64, AllocCall.malloc 32, AllocCall.free 4096]
    (afterRuns (runCalls oracleA [AllocCall.malloc 64, AllocCall.malloc 32, AllocCall.free 4096] initState))
    (by rfl) OpKind.malloc

/-- C10 (amended): the size field of the event an outermost successful
`calloc(nmemb, size)` call emits is the `size_t` product `size * nmemb`
reduced modulo `SIZE_MOD` (wrapping multiplication), which equals the exact
product precisely when that product fits in `size_t`. -/
theorem C10_calloc_logs_wrapped_product (r : RealImpls) (nmemb size : Nat) (s : MState)
    (v : RetVal) (s' : MState)
    (hm : s.mutex < UINT_MOD)
    (hwf : slotK OpKind.calloc s = true → s.logFile.isSome = true)
    (hout : s.mutex = 0) (hsucc : r.calloc_impl nmemb size ≠ 0)
    (h : runCall r (AllocCall.calloc nmemb size) s = Except.ok (v, s')) :
    eventRecords s' =
      eventRecords s ++
        [{ time := r.clock, allocator := "calloc", size := (size * nmemb) % SIZE_MOD,
           ptr := r.calloc_impl nmemb size, frames := r.backtraceLines }] ∧
    (size * nmemb < SIZE_MOD → (size * nmemb) % SIZE_MOD = size * nmemb) := by
  obtain ⟨-, hps⟩ := runCall_ok_inv r (AllocCall.calloc nmemb size) s v s' hm hwf h
  subst hps
  constructor
  · rw [eventRecords_postCall r (AllocCall.calloc nmemb size) s hwf]
    rw [if_pos ⟨hout, by simp [successCond, bne_iff_ne, hsucc]⟩]
    rfl
  · exact fun hlt => Nat.mod_eq_of_lt hlt

/-- C10 witness: a small product is logged exactly. -/
theorem C10_calloc_logs_wrapped_product_witness :
    (eventRecords (afterRun (runCall oracleA (AllocCall.calloc 3 8) initState)) =
      eventRecords initState ++
        [{ time := oracleA.clock, allocator := "calloc", size := (8 * 3) % SIZE_MOD,
           ptr := oracleA.calloc_impl 3 8, frames := oracleA.backtraceLines }]) ∧
    (8 * 3) % SIZE_MOD = 8 * 3 := by
  obtain ⟨h1, h2⟩ := C10_calloc_logs_wrapped_product oracleA 3 8 initState
    (retOf (runCall oracleA (AllocCall.calloc 3 8) initState))
    (afterRun (runCall oracleA (AllocCall.calloc 3 8) initState))
    (by decide) (by decide) (by decide) (by decide) (by rfl)
  exact ⟨h1, h2 (by decide)⟩

/-- C10 counterexample: with `nmemb = size = 2 ^ 32` the wrapped call may
return non-null, and the logged size is `0`, not the exact product
`2 ^ 64` - so "the size field equals `nmemb * size` computed exactly, for
all values" fails. -/
theorem C10_cex_calloc_product_overflows :
    ¬ (∀ e ∈ eventRecords (afterRun (runCall oracleA (AllocCall.calloc 4294967296 4294967296) initState)),
        e.size = 4294967296 * 4294967296) := by
  decide

end Perun
